import Mathlib

/-!
Shallow embedding of the fall-detector event pipeline
(`src/outputs/event_logger.py`, `src/outputs/json_logger.py`,
`src/outputs/firebase_connector.py`, defaults from `src/config.py`).

Modelling conventions:
* UTC instants are rationals (`ℚ`); `datetime` subtraction and
  `total_seconds()` become exact rational subtraction.
* Python JSON values are the inductive `JVal`; a JSON object / dict is an
  association list `JDict` looked up with `dictGet` (Python `dict.get`).
* File-system effects are explicit state passing over `LogFS`
  (the log file plus the quarantine directory); `os.replace` of a corrupt
  file becomes `backupCorrupt`.
* `time.sleep`, Firestore uploads and `datetime.fromisoformat` are external
  effects: sleeps are collected in a trace list, upload outcomes and ISO
  parsing/printing are oracle parameters of the embedding.
-/

namespace DetectorCaidas

/-- Default of `MIN_FALL_DURATION_SEC` in `src/config.py` (0.5 s). -/
def MIN_FALL_DURATION_SEC : ℚ := 1/2

/-- Default of `EVENT_DEDUP_WINDOW_SEC` in `src/config.py` (2.0 s). -/
def EVENT_DEDUP_WINDOW_SEC : ℚ := 2

/-- Default `max_retries` of `FirebaseConnector.__init__`. -/
def defaultMaxRetries : Nat := 3

/-- Default `retry_backoff` of `FirebaseConnector.__init__` (1.0 s). -/
def defaultRetryBackoff : ℚ := 1

/-- A Python/JSON value as stored in the JSON history files. -/
inductive JVal where
  | null : JVal
  | bool (b : Bool) : JVal
  | num (q : ℚ) : JVal
  | str (s : String) : JVal
  | arr (elems : List JVal) : JVal
  | obj (fields : List (String × JVal)) : JVal

/-- A JSON object / Python dict. -/
abbrev JDict := List (String × JVal)

/-- Python truthiness test (`if not ts:` skips falsy values). -/
def JVal.falsy : JVal → Bool
  | .null => true
  | .bool b => !b
  | .num q => q == 0
  | .str s => s.isEmpty
  | .arr xs => xs.isEmpty
  | .obj fs => fs.isEmpty

/-- `dict.get key` on a JSON object: first binding of `key`, if any. -/
def dictGet (key : String) (d : JDict) : Option JVal :=
  (d.find? (fun p => p.1 == key)).map (·.2)

/-- The two states of `EventLogger`'s state machine (`self.state`). -/
inductive MachineState where
  | NORMAL : MachineState
  | FALLING : MachineState
deriving DecidableEq

/-- A completed fall event as built by `EventLogger.update` / `finalize`.
Field names match the keys of the Python dict; `finalized_forced = none`
models the key being absent (events from `update`), `some true` models the
key set by `finalize`. -/
structure Event where
  event_type : String
  start_time : ℚ
  end_time : ℚ
  duration_seconds : ℚ
  start_frame : Option Int
  end_frame : Option Int
  total_frames : Option Int
  photo_start : Option String
  metadata : Option JDict
  finalized_forced : Option Bool

/-- The mutable fields of `EventLogger` relevant to the state machine. -/
structure ELState where
  state : MachineState
  fall_start_time : Option ℚ
  fall_start_frame : Option Int
  fall_photo_path : Option String
  fall_metadata : Option JDict

/-- Fresh `EventLogger` (constructor defaults). -/
def ELState.init : ELState :=
  { state := .NORMAL, fall_start_time := none, fall_start_frame := none,
    fall_photo_path := none, fall_metadata := none }

/-- One call to `EventLogger.update`: arguments of the Python method plus
the instant `now = datetime.now(timezone.utc)` observed inside the call. -/
structure Sig where
  now : ℚ
  is_falling : Bool
  frame_idx : Int
  photo_path : Option String
  metadata : Option JDict

namespace EventLogger

/-- `EventLogger.update` (src/outputs/event_logger.py lines 50-104).
The `if / elif` pair is the match on `(is_falling, state)`:
`(true, NORMAL)` starts a fall, `(false, FALLING)` ends it and emits the
completed event; the two remaining cases change nothing.  On the ending
transition only `state` and `fall_start_time` are reset, exactly as in the
source. -/
def update (s : ELState) (now : ℚ) (is_falling : Bool) (frame_idx : Int)
    (photo_path : Option String) (metadata : Option JDict) :
    ELState × Option Event :=
  match is_falling, s.state with
  | true, .NORMAL =>
      ({ state := .FALLING, fall_start_time := some now,
         fall_start_frame := some frame_idx, fall_photo_path := photo_path,
         fall_metadata := some (metadata.getD []) }, none)
  | false, .FALLING =>
      let completed : Option Event :=
        match s.fall_start_time with
        | some st =>
            some { event_type := "fall", start_time := st, end_time := now,
                   duration_seconds := now - st,
                   start_frame := s.fall_start_frame,
                   end_frame := some (frame_idx - 1),
                   total_frames := s.fall_start_frame.map (fun f => frame_idx - f),
                   photo_start := s.fall_photo_path,
                   metadata := s.fall_metadata,
                   finalized_forced := none }
        | none => none
      ({ s with state := .NORMAL, fall_start_time := none }, completed)
  | _, _ => (s, none)

/-- `EventLogger.finalize` (src/outputs/event_logger.py lines 166-205):
no pending fall returns `none`; a `FALLING` state missing its start time is
the inconsistent-state reset; otherwise the forced event is emitted with
`end_frame = null` and every mutable field is reset. -/
def finalize (s : ELState) (now : ℚ) : ELState × Option Event :=
  match s.state with
  | .NORMAL => (s, none)
  | .FALLING =>
      match s.fall_start_time with
      | none => ({ s with state := .NORMAL }, none)
      | some st =>
          ({ state := .NORMAL, fall_start_time := none, fall_start_frame := none,
             fall_photo_path := none, fall_metadata := none },
           some { event_type := "fall", start_time := st, end_time := now,
                  duration_seconds := now - st,
                  start_frame := s.fall_start_frame,
                  end_frame := none, total_frames := none,
                  photo_start := s.fall_photo_path,
                  metadata := s.fall_metadata,
                  finalized_forced := some true })

/-- Feed a list of per-frame signals through `update`, collecting the
emitted events in order. -/
def runUpdates : ELState → List Sig → ELState × List Event
  | s, [] => (s, [])
  | s, sig :: rest =>
      let step := update s sig.now sig.is_falling sig.frame_idx sig.photo_path sig.metadata
      let tail := runUpdates step.1 rest
      (tail.1, step.2.toList ++ tail.2)

end EventLogger

/-- Observable content of a JSON history file on disk. -/
inductive FileData where
  | absent : FileData
  | malformed (raw : String) : FileData
  | parsed (v : JVal) : FileData

/-- The file system visible to a logger: the history file plus the
quarantine backups (`<name>.corrupt.<reason>.<timestamp>` files), each
keeping the data that was moved aside. -/
structure LogFS where
  main : FileData
  quarantine : List (String × FileData)

/-- `_backup_corrupt_file` (json_logger.py lines 134-143 /
firebase_connector.py lines 124-132): `os.replace` the history file to
`<name>.corrupt.<reason>.<ts>`, preserving its content. -/
def backupCorrupt (name ts reason : String) (fs : LogFS) : LogFS :=
  { main := .absent,
    quarantine := fs.quarantine ++ [(name ++ ".corrupt." ++ reason ++ "." ++ ts, fs.main)] }

/-- Outcome of one `_write_history` call: `ok`, or an injected I/O failure
(disk full, permission, ...) at one of the steps before `os.replace`. -/
inductive WriteOutcome where
  | ok : WriteOutcome
  | failMkstemp : WriteOutcome
  | failWrite : WriteOutcome
  | failFsync : WriteOutcome
deriving DecidableEq

namespace EventLogger

/-- `EventLogger._read_history` (event_logger.py lines 125-136): missing
file, parse failure and non-list top level all yield `[]`; no file is ever
moved or modified (the `except` branch only logs). -/
def read_history (fs : LogFS) : List JVal × LogFS :=
  match fs.main with
  | .absent => ([], fs)
  | .malformed _ => ([], fs)
  | .parsed (.arr xs) => (xs, fs)
  | .parsed _ => ([], fs)

/-- `EventLogger._write_history` (event_logger.py lines 138-155): write the
whole sequence to a temp file, fsync, then atomically `os.replace` it over
the destination.  Any failure before the replace leaves `main` untouched
(the temp file is removed in `finally`) and raises. -/
def write_history (out : WriteOutcome) (history : List JVal) (fs : LogFS) :
    Except Unit LogFS :=
  match out with
  | .ok => .ok { fs with main := .parsed (.arr history) }
  | _ => .error ()

/-- `EventLogger.log_event` (event_logger.py lines 106-123): read, append,
write; any exception is caught and reported as `false`. -/
def log_event (out : WriteOutcome) (event : JVal) (fs : LogFS) : Bool × LogFS :=
  match write_history out ((read_history fs).1 ++ [event]) fs with
  | .ok fs' => (true, fs')
  | .error _ => (false, fs)

end EventLogger

namespace JSONLogger

/-- `JSONLogger._read_history` (json_logger.py lines 92-112): missing file
yields `[]`; a JSON parse failure quarantines with reason
`json-decode-error`; a parsed non-list quarantines with reason
`not-a-list`; both return `[]`.  `name` is the history file's name and
`ts` the quarantine timestamp. -/
def read_history (name ts : String) (fs : LogFS) : List JVal × LogFS :=
  match fs.main with
  | .absent => ([], fs)
  | .malformed _ => ([], backupCorrupt name ts "json-decode-error" fs)
  | .parsed (.arr xs) => (xs, fs)
  | .parsed _ => ([], backupCorrupt name ts "not-a-list" fs)

end JSONLogger

namespace FirebaseConnector

/-- `FirebaseConnector._parse_iso` applied to a raw JSON value: `ts` must
be a string or `fromisoformat` raises (caught, giving `None`); string
parsing itself is the oracle `parse` (UTC instants as `ℚ`). -/
def parseIsoJ (parse : String → Option ℚ) : JVal → Option ℚ
  | .str s => parse s
  | _ => none

/-- The retry loop body of `_upload_event` (firebase_connector.py lines
178-188) for attempt numbers `attempt, attempt+1, ...` with `fuel`
attempts left.  `attemptOk n` is the outcome of the n-th Firestore `add`.
Returns the overall result and the `time.sleep` durations performed, in
order (a sleep of `retry_backoff * attempt` follows every failed attempt,
the last one included). -/
def uploadGo (attemptOk : Nat → Bool) (retry_backoff : ℚ) :
    Nat → Nat → Bool × List ℚ
  | _, 0 => (false, [])
  | attempt, fuel + 1 =>
      if attemptOk attempt then (true, [])
      else
        let r := uploadGo attemptOk retry_backoff (attempt + 1) fuel
        (r.1, retry_backoff * attempt :: r.2)

/-- `FirebaseConnector._upload_event` (lines 169-188): no client means no
attempt and `False`; otherwise attempts `1 .. max_retries` via `uploadGo`. -/
def upload_event (hasClient : Bool) (max_retries : Nat) (retry_backoff : ℚ)
    (attemptOk : Nat → Bool) : Bool × List ℚ :=
  if hasClient then uploadGo attemptOk retry_backoff 1 max_retries
  else (false, [])

/-- Candidate selection of `sync_new_events` (lines 203-212) for one
history entry: `ev.get("timestamp")`, skip falsy, parse (non-strings fail),
keep when past the cursor. -/
def candidateOf (parse : String → Option ℚ) (last_dt : Option ℚ) (ev : JDict) :
    Option (ℚ × JDict) :=
  match dictGet "timestamp" ev with
  | none => none
  | some ts =>
      if ts.falsy then none
      else
        match parseIsoJ parse ts with
        | none => none
        | some ev_dt =>
            match last_dt with
            | none => some (ev_dt, ev)
            | some l => if l < ev_dt then some (ev_dt, ev) else none

/-- `FirebaseConnector.sync_new_events` (lines 190-227).  `parse` / `iso`
are the `datetime.fromisoformat` / `isoformat` oracles, `uploadOk ev` the
collapsed outcome of `self._upload_event(ev)` (retries included),
`lastState` the cursor-file content (`_read_state`).  Python sorts the
candidate list stably by timestamp; `List.insertionSort` is such a stable
sort.  Returns the value of `uploaded`, the final cursor-file content
(`_write_state` after every success), and the trace of entries passed to
`_upload_event`, in order — on a failed upload the loop continues with the
next candidate. -/
def sync_new_events (parse : String → Option ℚ) (iso : ℚ → String)
    (uploadOk : JDict → Bool) (history : List JDict) (lastState : Option String) :
    Nat × Option String × List JDict :=
  match history with
  | [] => (0, lastState, [])
  | _ :: _ =>
    let last_dt : Option ℚ :=
      match lastState with
      | none => none
      | some s => parse s
    let candidates := history.filterMap (candidateOf parse last_dt)
    let sorted := candidates.insertionSort (fun a b => a.1 ≤ b.1)
    let final := sorted.foldl
      (fun (acc : Nat × Option String) p =>
        if uploadOk p.2 then (acc.1 + 1, some (iso p.1)) else acc)
      (0, lastState)
    (final.1, final.2, sorted.map (·.2))

end FirebaseConnector

/-- The Python dict literal built by `EventLogger.update` /
`EventLogger.finalize`, as written to the JSON history file.  `iso` renders
instants to ISO-8601 strings.  The `finalized_forced` key is present
exactly when the event carries it (finalize). -/
def Event.toDict (iso : ℚ → String) (e : Event) : JDict :=
  [("event_type", .str e.event_type),
   ("start_time", .str (iso e.start_time)),
   ("end_time", .str (iso e.end_time)),
   ("duration_seconds", .num e.duration_seconds),
   ("start_frame", match e.start_frame with | some f => .num f | none => .null),
   ("end_frame", match e.end_frame with | some f => .num f | none => .null),
   ("total_frames", match e.total_frames with | some f => .num f | none => .null),
   ("photo_start", match e.photo_start with | some p => .str p | none => .null),
   ("metadata", match e.metadata with | some m => .obj m | none => .null)]
  ++ (match e.finalized_forced with
      | some b => [("finalized_forced", .bool b)]
      | none => [])

/-- An entry has a usable timestamp for `sync_new_events`: a `timestamp`
key holding a non-falsy string that the ISO parser accepts. -/
def hasParseableTs (parse : String → Option ℚ) (ev : JDict) : Bool :=
  match dictGet "timestamp" ev with
  | none => false
  | some ts =>
      !ts.falsy &&
        (match ts with
         | .str s => (parse s).isSome
         | _ => false)

/-- The `now` instants observed by successive `update` calls are
non-decreasing starting from `t` (the real clock moves forward). -/
def timesMono : ℚ → List Sig → Bool
  | _, [] => true
  | t, sig :: rest => decide (t ≤ sig.now) && timesMono sig.now rest

/-- The instant observed by the last call, `t` if there is none. -/
def lastNow : ℚ → List Sig → ℚ
  | t, [] => t
  | _, sig :: rest => lastNow sig.now rest

/-- The well-formedness the spec requires of every emitted event:
`endTime >= startTime` and `durationSeconds = endTime - startTime`
(instants are rationals, so the equation is exact). -/
def goodEvent (ev : Event) : Prop :=
  ev.start_time ≤ ev.end_time ∧ ev.duration_seconds = ev.end_time - ev.start_time

/-- Any recorded fall start lies at or before instant `t`. -/
def startBound (t : ℚ) (s : ELState) : Prop :=
  ∀ st, s.fall_start_time = some st → st ≤ t

/-- Concrete ISO-parsing oracle for test fixtures: recognizes the strings
"1", "2", "3". -/
def parseFix : String → Option ℚ := fun s =>
  if s = "1" then some 1 else if s = "2" then some 2
  else if s = "3" then some 3 else none

/-- Concrete ISO-printing oracle for test fixtures, inverse of `parseFix`
on 1, 2, 3. -/
def isoFix : ℚ → String := fun q =>
  if q = 1 then "1" else if q = 2 then "2" else if q = 3 then "3" else ""

/-- Test-fixture uploader: fails exactly on the entry stamped "3". -/
def uploadOkFix : JDict → Bool := fun ev =>
  match dictGet "timestamp" ev with
  | some (.str "3") => false
  | _ => true

/-- Test-fixture history entry holding only a timestamp string. -/
def entryFix (s : String) : JDict := [("timestamp", JVal.str s)]

/-! ## Theorems -/

/-- One `update` step at instant `now ≥ t` keeps the recorded start bounded
by the clock and only emits well-formed events. -/
theorem update_step_good (s : ELState) (t now : ℚ) (b : Bool) (fi : Int)
    (pp : Option String) (md : Option JDict)
    (hb : startBound t s) (ht : t ≤ now) :
    startBound now (EventLogger.update s now b fi pp md).1 ∧
    ∀ ev, (EventLogger.update s now b fi pp md).2 = some ev → goodEvent ev := by
  obtain ⟨state, fst, fsf, fpp, fm⟩ := s
  cases b <;> cases state
  case false.NORMAL =>
    exact ⟨fun st hst => (hb st hst).trans ht, fun ev h => by cases h⟩
  case true.NORMAL =>
    refine ⟨fun st hst => ?_, fun ev h => by cases h⟩
    cases hst
    exact le_refl now
  case true.FALLING =>
    exact ⟨fun st hst => (hb st hst).trans ht, fun ev h => by cases h⟩
  case false.FALLING =>
    cases fst with
    | none => exact ⟨fun st hst => (by cases hst), fun ev h => (by cases h)⟩
    | some st0 =>
        refine ⟨fun st hst => (by cases hst), fun ev h => ?_⟩
        cases h
        exact ⟨(hb st0 rfl).trans ht, rfl⟩

/-- Running `update` over monotone inputs emits only well-formed events and
keeps the recorded start bounded by the final clock value. -/
theorem runUpdates_good (inputs : List Sig) : ∀ (s : ELState) (t : ℚ),
    startBound t s → timesMono t inputs = true →
    (∀ ev ∈ (EventLogger.runUpdates s inputs).2, goodEvent ev) ∧
    startBound (lastNow t inputs) (EventLogger.runUpdates s inputs).1 := by
  induction inputs with
  | nil =>
      intro s t hb _
      exact ⟨fun ev h => absurd h (List.not_mem_nil ev), hb⟩
  | cons sig rest ih =>
      intro s t hb hm
      simp only [timesMono, Bool.and_eq_true, decide_eq_true_eq] at hm
      obtain ⟨ht, hm'⟩ := hm
      obtain ⟨hb', hev⟩ := update_step_good s t sig.now sig.is_falling sig.frame_idx
        sig.photo_path sig.metadata hb ht
      obtain ⟨ihall, ihb⟩ := ih _ sig.now hb' hm'
      refine ⟨fun ev h => ?_, ihb⟩
      simp only [EventLogger.runUpdates, List.mem_append] at h
      rcases h with h | h
      · exact hev ev (Option.mem_toList.mp h)
      · exact ihall ev h

/-- `finalize` at instant `tf ≥ t` only emits well-formed events. -/
theorem finalize_good (s : ELState) (t tf : ℚ) (hb : startBound t s) (ht : t ≤ tf) :
    ∀ ev, (EventLogger.finalize s tf).2 = some ev → goodEvent ev := by
  obtain ⟨state, fst, fsf, fpp, fm⟩ := s
  cases state with
  | NORMAL => intro ev h; cases h
  | FALLING =>
      cases fst with
      | none => intro ev h; cases h
      | some st0 =>
          intro ev h
          cases h
          exact ⟨(hb st0 rfl).trans ht, rfl⟩

/-- C9: along any run of per-frame signals whose observed instants are
non-decreasing, every event emitted by `update`, and any event emitted by a
final `finalize` at or after the last instant, satisfies
`endTime >= startTime` and `durationSeconds = endTime - startTime`. -/
theorem events_well_formed (inputs : List Sig) (t0 tf : ℚ)
    (hm : timesMono t0 inputs = true) (hf : lastNow t0 inputs ≤ tf) :
    (∀ ev ∈ (EventLogger.runUpdates ELState.init inputs).2, goodEvent ev) ∧
    (∀ ev, (EventLogger.finalize
        (EventLogger.runUpdates ELState.init inputs).1 tf).2 = some ev →
      goodEvent ev) := by
  have hb : startBound t0 ELState.init := fun st hst => by cases hst
  obtain ⟨hall, hb'⟩ := runUpdates_good inputs ELState.init t0 hb hm
  exact ⟨hall, fun ev h => finalize_good _ _ tf hb' hf ev h⟩

/-- C9 witness: a fall that starts at t = 0 and is force-finalized at
t = 2 yields a well-formed event (duration 2 = 2 - 0). -/
theorem events_well_formed_witness :
    goodEvent { event_type := "fall", start_time := 0, end_time := 2,
                duration_seconds := 2 - 0, start_frame := some 1,
                end_frame := none, total_frames := none, photo_start := none,
                metadata := some [], finalized_forced := some true } :=
  (events_well_formed [⟨0, true, 1, none, none⟩] 0 2
      (by norm_num [timesMono]) (by norm_num [lastNow])).2 _ rfl

/-- Position `i` of the sleep trace of `uploadGo` starting at attempt
number `attempt` holds `backoff * (attempt + i)`, the result and trace
account for at most `fuel` attempts, and if every available attempt fails
the loop reports failure. -/
theorem uploadGo_spec (attemptOk : Nat → Bool) (backoff : ℚ) :
    ∀ (fuel attempt : Nat),
      ((FirebaseConnector.uploadGo attemptOk backoff attempt fuel).2.length
          + (if (FirebaseConnector.uploadGo attemptOk backoff attempt fuel).1
             then 1 else 0) ≤ fuel) ∧
      (∀ i, i < (FirebaseConnector.uploadGo attemptOk backoff attempt fuel).2.length →
          (FirebaseConnector.uploadGo attemptOk backoff attempt fuel).2.get? i
            = some (backoff * ((attempt : ℚ) + i))) ∧
      ((∀ k, attempt ≤ k → k < attempt + fuel → attemptOk k = false) →
          (FirebaseConnector.uploadGo attemptOk backoff attempt fuel).1 = false) := by
  intro fuel
  induction fuel with
  | zero =>
      intro attempt
      exact ⟨by simp [FirebaseConnector.uploadGo],
        fun i h => absurd h (by simp [FirebaseConnector.uploadGo]),
        fun _ => rfl⟩
  | succ n ih =>
      intro attempt
      by_cases hok : attemptOk attempt = true
      · refine ⟨?_, ?_, ?_⟩
        · simp [FirebaseConnector.uploadGo, hok]
        · intro i h
          simp [FirebaseConnector.uploadGo, hok] at h
        · intro hall
          have := hall attempt (le_refl attempt) (by omega)
          rw [hok] at this
          cases this
      · have hok' : attemptOk attempt = false := by
          cases hha : attemptOk attempt
          · rfl
          · exact absurd hha hok
        have hu : FirebaseConnector.uploadGo attemptOk backoff attempt (n + 1)
            = ((FirebaseConnector.uploadGo attemptOk backoff (attempt + 1) n).1,
               backoff * (attempt : ℚ)
                 :: (FirebaseConnector.uploadGo attemptOk backoff (attempt + 1) n).2) := by
          simp [FirebaseConnector.uploadGo, hok']
        obtain ⟨ih1, ih2, ih3⟩ := ih (attempt + 1)
        refine ⟨?_, ?_, ?_⟩
        · rw [hu]
          simp only [List.length_cons]
          omega
        · intro i h
          rw [hu]
          cases i with
          | zero =>
              simp only [List.get?_cons_zero, Option.some.injEq]
              push_cast
              ring
          | succ j =>
              rw [hu] at h
              simp only [List.length_cons, Nat.succ_lt_succ_iff] at h
              rw [List.get?_cons_succ, ih2 j h]
              congr 1
              push_cast
              ring
        · intro hall
          rw [hu]
          exact ih3 (fun k hk1 hk2 => hall k (by omega) (by omega))

/-- C10: `_upload_event` makes at most `max_retries` attempts (each sleep
in the trace corresponds to one failed attempt, plus one attempt for a
success), the wait after the n-th failed attempt is
`retry_backoff * n`, and when every attempt fails the upload reports
failure (`False`) to the sync pass. -/
theorem upload_event_retry_spec (hasClient : Bool) (max_retries : Nat)
    (backoff : ℚ) (attemptOk : Nat → Bool) :
    ((FirebaseConnector.upload_event hasClient max_retries backoff attemptOk).2.length
        + (if (FirebaseConnector.upload_event hasClient max_retries backoff attemptOk).1
           then 1 else 0) ≤ max_retries) ∧
    (∀ i, i < (FirebaseConnector.upload_event hasClient max_retries backoff
        attemptOk).2.length →
        (FirebaseConnector.upload_event hasClient max_retries backoff attemptOk).2.get? i
          = some (backoff * ((i : ℚ) + 1))) ∧
    ((∀ k, 1 ≤ k → k ≤ max_retries → attemptOk k = false) →
        (FirebaseConnector.upload_event hasClient max_retries backoff attemptOk).1
          = false) := by
  cases hasClient with
  | false =>
      exact ⟨by simp [FirebaseConnector.upload_event],
        fun i h => absurd h (by simp [FirebaseConnector.upload_event]),
        fun _ => rfl⟩
  | true =>
      obtain ⟨h1, h2, h3⟩ := uploadGo_spec attemptOk backoff max_retries 1
      refine ⟨h1, ?_, ?_⟩
      · intro i h
        refine (h2 i h).trans ?_
        congr 1
        push_cast
        ring
      · intro hall
        exact h3 (fun k hk1 hk2 => hall k hk1 (by omega))

/-- C10 witness: with the default three retries, base backoff 1 s and a
permanently failing Firestore `add`, `_upload_event` reports failure. -/
theorem upload_event_retry_spec_witness :
    (FirebaseConnector.upload_event true defaultMaxRetries defaultRetryBackoff
        (fun _ => false)).1 = false :=
  (upload_event_retry_spec true defaultMaxRetries defaultRetryBackoff
      (fun _ => false)).2.2 (fun _ _ _ => rfl)

/-- C2: evaluation of the code at a short anomalous run.  A `true` signal
at t = 0 s followed by a `false` signal at t = 0.3 s makes
`EventLogger.update` emit one completed event of duration 0.3 s, although
0.3 < `MIN_FALL_DURATION_SEC` = 0.5: the minimum-duration filter announced
by the configuration is not applied anywhere in `update`. -/
theorem update_emits_below_min_duration :
    ∃ ev, (EventLogger.runUpdates ELState.init
        [⟨0, true, 1, none, none⟩, ⟨3/10, false, 2, none, none⟩]).2 = [ev] ∧
      ev.duration_seconds = 3/10 ∧ ev.duration_seconds < MIN_FALL_DURATION_SEC := by
  refine ⟨_, rfl, ?_, ?_⟩ <;> norm_num [MIN_FALL_DURATION_SEC]

/-- C3: evaluation of the code at two runs separated by a 1.0 s gap
(smaller than `EVENT_DEDUP_WINDOW_SEC` = 2.0).  `EventLogger.update` emits
two separate events — the first ending at t = 1, the second starting at
t = 2 — and never merges them: no dedup window is applied in `update`. -/
theorem update_emits_two_events_within_dedup_window :
    ∃ e1 e2, (EventLogger.runUpdates ELState.init
        [⟨0, true, 1, none, none⟩, ⟨1, false, 2, none, none⟩,
         ⟨2, true, 3, none, none⟩, ⟨3, false, 4, none, none⟩]).2 = [e1, e2] ∧
      e1.end_time = 1 ∧ e2.start_time = 2 ∧
      e2.start_time - e1.end_time < EVENT_DEDUP_WINDOW_SEC := by
  refine ⟨_, _, rfl, ?_, ?_, ?_⟩ <;> norm_num [EVENT_DEDUP_WINDOW_SEC]

/-- C5 (amended): for a file whose content is unparseable JSON or whose
top-level shape is not a list, `JSONLogger._read_history` returns `[]` and
moves the file to exactly one quarantine path of the form
`<name>.corrupt.<reason>.<timestamp>`, preserving its content — while
`EventLogger._read_history` on the same file also returns `[]` but
performs no quarantine and leaves the file system unchanged. -/
theorem read_history_corrupt_quarantine (name ts : String) (fs : LogFS)
    (h : (∃ r, fs.main = .malformed r) ∨
         ∃ v, fs.main = .parsed v ∧ ∀ xs, v ≠ .arr xs) :
    (JSONLogger.read_history name ts fs).1 = [] ∧
    (∃ reason,
      (JSONLogger.read_history name ts fs).2.main = .absent ∧
      (JSONLogger.read_history name ts fs).2.quarantine
        = fs.quarantine ++ [(name ++ ".corrupt." ++ reason ++ "." ++ ts, fs.main)]) ∧
    (EventLogger.read_history fs).1 = [] ∧
    (EventLogger.read_history fs).2 = fs := by
  obtain ⟨main, quar⟩ := fs
  rcases h with ⟨r, hm⟩ | ⟨v, hm, hv⟩
  · cases hm
    exact ⟨rfl, ⟨"json-decode-error", rfl, rfl⟩, rfl, rfl⟩
  · cases hm
    cases v with
    | arr xs => exact absurd rfl (hv xs)
    | null => exact ⟨rfl, ⟨"not-a-list", rfl, rfl⟩, rfl, rfl⟩
    | bool b => exact ⟨rfl, ⟨"not-a-list", rfl, rfl⟩, rfl, rfl⟩
    | num q => exact ⟨rfl, ⟨"not-a-list", rfl, rfl⟩, rfl, rfl⟩
    | str s => exact ⟨rfl, ⟨"not-a-list", rfl, rfl⟩, rfl, rfl⟩
    | obj fields => exact ⟨rfl, ⟨"not-a-list", rfl, rfl⟩, rfl, rfl⟩

/-- C5 witness: the amended statement applied to a file holding unparseable
JSON. -/
theorem read_history_corrupt_quarantine_witness :
    (JSONLogger.read_history "events_history.json" "20240101T000000Z"
        ⟨.malformed "oops", []⟩).1 = [] ∧
    (∃ reason,
      (JSONLogger.read_history "events_history.json" "20240101T000000Z"
          ⟨.malformed "oops", []⟩).2.main = .absent ∧
      (JSONLogger.read_history "events_history.json" "20240101T000000Z"
          ⟨.malformed "oops", []⟩).2.quarantine
        = [] ++ [("events_history.json" ++ ".corrupt." ++ reason ++ "."
                    ++ "20240101T000000Z", .malformed "oops")]) ∧
    (EventLogger.read_history ⟨.malformed "oops", []⟩).1 = [] ∧
    (EventLogger.read_history ⟨.malformed "oops", []⟩).2 = ⟨.malformed "oops", []⟩ :=
  read_history_corrupt_quarantine "events_history.json" "20240101T000000Z"
    ⟨.malformed "oops", []⟩ (Or.inl ⟨"oops", rfl⟩)

/-- C5 counterexample: the claim as stated also covers
`EventLogger._read_history`, but on the file containing the valid JSON
string `"not a json array"` (a non-list top level) that read returns `[]`
while moving nothing aside: the file system is unchanged and no quarantine
file (name containing `corrupt`) exists, contradicting the claimed
"exactly one quarantine path". -/
theorem eventlogger_read_no_quarantine :
    (EventLogger.read_history ⟨.parsed (.str "not a json array"), []⟩).1 = [] ∧
    (EventLogger.read_history ⟨.parsed (.str "not a json array"), []⟩).2
      = ⟨.parsed (.str "not a json array"), []⟩ ∧
    ¬ (EventLogger.read_history
        ⟨.parsed (.str "not a json array"), []⟩).2.quarantine.length = 1 := by
  refine ⟨rfl, rfl, ?_⟩
  intro h
  simp [EventLogger.read_history] at h

/-- C6: a successful append followed by a read of the same path (a fresh
instance reads the same file-system state) yields exactly the previously
readable sequence with the new event appended at the end. -/
theorem append_then_read_roundtrip (out : WriteOutcome) (fs fs' : LogFS) (e : JVal)
    (h : EventLogger.log_event out e fs = (true, fs')) :
    (EventLogger.read_history fs').1 = (EventLogger.read_history fs).1 ++ [e] := by
  cases out with
  | ok =>
      simp only [EventLogger.log_event, EventLogger.write_history, Prod.mk.injEq,
        true_and] at h
      rw [← h]
      simp [EventLogger.read_history]
  | failMkstemp => simp [EventLogger.log_event, EventLogger.write_history] at h
  | failWrite => simp [EventLogger.log_event, EventLogger.write_history] at h
  | failFsync => simp [EventLogger.log_event, EventLogger.write_history] at h

/-- C6 witness: appending to an absent file and re-reading yields the one
appended event. -/
theorem append_then_read_roundtrip_witness :
    (EventLogger.read_history ⟨.parsed (.arr [.null]), []⟩).1
      = (EventLogger.read_history ⟨.absent, []⟩).1 ++ [.null] :=
  append_then_read_roundtrip .ok ⟨.absent, []⟩ ⟨.parsed (.arr [.null]), []⟩ .null rfl

/-- C7: any write failure before the atomic rename (temp-file creation,
write, or fsync) leaves the pre-existing log file — indeed the whole file
system — unchanged, and `log_event` reports it as `false` instead of
raising. -/
theorem log_event_write_failure_safe (out : WriteOutcome) (fs : LogFS) (e : JVal)
    (h : out ≠ .ok) :
    EventLogger.log_event out e fs = (false, fs) := by
  cases out with
  | ok => exact absurd rfl h
  | failMkstemp => rfl
  | failWrite => rfl
  | failFsync => rfl

/-- C7 witness: an injected write failure on a concrete file. -/
theorem log_event_write_failure_safe_witness :
    EventLogger.log_event .failWrite (.str "e") ⟨.parsed (.arr [.null]), []⟩
      = (false, ⟨.parsed (.arr [.null]), []⟩) :=
  log_event_write_failure_safe .failWrite ⟨.parsed (.arr [.null]), []⟩ (.str "e")
    (by decide)

/-- C8: from a `FALLING` state with a recorded start time, `finalize`
returns a completed event with `finalized_forced = true` and
`end_frame = null`, resets the machine to `NORMAL`, and a second `finalize`
without an intervening anomalous period returns nothing. -/
theorem finalize_forced_then_idempotent (s : ELState) (t t' st : ℚ)
    (hs : s.state = .FALLING) (hst : s.fall_start_time = some st) :
    ∃ ev, (EventLogger.finalize s t).2 = some ev ∧
      ev.finalized_forced = some true ∧ ev.end_frame = none ∧
      (EventLogger.finalize s t).1.state = .NORMAL ∧
      (EventLogger.finalize (EventLogger.finalize s t).1 t').2 = none := by
  obtain ⟨state, fst, fsf, fpp, fm⟩ := s
  cases hs
  cases hst
  exact ⟨_, rfl, rfl, rfl, rfl, rfl⟩

/-- C8 witness: a concrete `FALLING` state. -/
theorem finalize_forced_then_idempotent_witness :
    ∃ ev, (EventLogger.finalize ⟨.FALLING, some 0, some 1, none, none⟩ 1).2 = some ev ∧
      ev.finalized_forced = some true ∧ ev.end_frame = none ∧
      (EventLogger.finalize ⟨.FALLING, some 0, some 1, none, none⟩ 1).1.state = .NORMAL ∧
      (EventLogger.finalize
        (EventLogger.finalize ⟨.FALLING, some 0, some 1, none, none⟩ 1).1 2).2 = none :=
  finalize_forced_then_idempotent ⟨.FALLING, some 0, some 1, none, none⟩ 1 2 0 rfl rfl

/-- A candidate pair produced by `candidateOf` carries the entry it was
produced from. -/
theorem candidateOf_snd_eq (parse : String → Option ℚ) (last_dt : Option ℚ)
    (ev : JDict) (p : ℚ × JDict)
    (h : FirebaseConnector.candidateOf parse last_dt ev = some p) : p.2 = ev := by
  unfold FirebaseConnector.candidateOf at h
  repeat' split at h
  all_goals (cases h <;> rfl)

/-- If an entry's timestamp passes every guard of the candidate loop
(present, not falsy, ISO-parseable), the entry has a usable timestamp. -/
theorem parseable_of_guards (parse : String → Option ℚ) (ts : JVal) (ev : JDict)
    (hts : dictGet "timestamp" ev = some ts) (hfalsy : ¬ ts.falsy = true)
    (ev_dt : ℚ) (hp : FirebaseConnector.parseIsoJ parse ts = some ev_dt) :
    hasParseableTs parse ev = true := by
  cases ts with
  | str s =>
      have hp' : parse s = some ev_dt := hp
      have hfe : s.isEmpty = false := by
        cases hse : s.isEmpty
        · rfl
        · exact absurd hse hfalsy
      simp [hasParseableTs, hts, JVal.falsy, hfe, hp']
  | null => exact absurd rfl hfalsy
  | bool b => exact Option.noConfusion hp
  | num q => exact Option.noConfusion hp
  | arr xs => exact Option.noConfusion hp
  | obj fs => exact Option.noConfusion hp

/-- An entry without a usable timestamp yields no candidate, whatever the
cursor value is. -/
theorem candidateOf_none (parse : String → Option ℚ) (last_dt : Option ℚ)
    (ev : JDict) (h : hasParseableTs parse ev = false) :
    FirebaseConnector.candidateOf parse last_dt ev = none := by
  unfold FirebaseConnector.candidateOf
  split
  · rfl
  next ts hts =>
    split
    · rfl
    next hfalsy =>
      split
      · rfl
      next ev_dt hp =>
        exact absurd (parseable_of_guards parse ts ev hts hfalsy ev_dt hp)
          (by rw [h]; exact Bool.false_ne_true)

/-- C4: a history entry that lacks a `timestamp` key, or whose `timestamp`
value is falsy, not a string, or rejected by the ISO parser, is never
selected as a candidate by `sync_new_events` and never handed to
`_upload_event`, whatever the persisted cursor holds; and the dicts built
by `EventLogger.update` / `finalize` (serialized by `Event.toDict`) carry
no `timestamp` key at all, so they satisfy that hypothesis. -/
theorem sync_skips_entries_without_timestamp (parse : String → Option ℚ)
    (iso : ℚ → String) (uploadOk : JDict → Bool) (history : List JDict)
    (lastState : Option String) (ev : JDict)
    (h : hasParseableTs parse ev = false) :
    ev ∉ (FirebaseConnector.sync_new_events parse iso uploadOk history lastState).2.2 ∧
    ∀ (e : Event) (iso' : ℚ → String),
      hasParseableTs parse (Event.toDict iso' e) = false := by
  constructor
  · cases history with
    | nil =>
        intro hmem
        simp [FirebaseConnector.sync_new_events] at hmem
    | cons x t =>
        intro hmem
        simp only [FirebaseConnector.sync_new_events, List.mem_map] at hmem
        obtain ⟨p, hp, hpe⟩ := hmem
        rw [List.mem_insertionSort, List.mem_filterMap] at hp
        obtain ⟨y, _, hcy⟩ := hp
        have hye : p.2 = y := candidateOf_snd_eq _ _ _ _ hcy
        rw [hye] at hpe
        subst hpe
        rw [candidateOf_none _ _ _ h] at hcy
        cases hcy
  · intro e iso'
    obtain ⟨et, st, en, du, sf, ef, tf, ps, md, ff⟩ := e
    cases ff <;> rfl

/-- C4 witness: an entry with no `timestamp` key is not uploaded. -/
theorem sync_skips_entries_without_timestamp_witness :
    [("x", JVal.null)] ∉ (FirebaseConnector.sync_new_events (fun _ => none)
        (fun _ => "") (fun _ => true) [[("x", JVal.null)]] none).2.2 ∧
    ∀ (e : Event) (iso' : ℚ → String),
      hasParseableTs (fun _ => none) (Event.toDict iso' e) = false :=
  sync_skips_entries_without_timestamp (fun _ => none) (fun _ => "") (fun _ => true)
    [[("x", JVal.null)]] none [("x", JVal.null)] rfl

/-- Evaluation of `candidateOf` on an entry holding a parseable non-empty
timestamp string. -/
theorem candidateOf_str (parse : String → Option ℚ) (last_dt : Option ℚ)
    (ev : JDict) (s : String) (q : ℚ)
    (h1 : dictGet "timestamp" ev = some (.str s)) (h2 : s.isEmpty = false)
    (h3 : parse s = some q) :
    FirebaseConnector.candidateOf parse last_dt ev
      = match last_dt with
        | none => some (q, ev)
        | some l => if l < q then some (q, ev) else none := by
  unfold FirebaseConnector.candidateOf
  rw [h1]
  simp only [JVal.falsy, h2, Bool.false_eq_true, if_false, FirebaseConnector.parseIsoJ, h3]

/-- C1: with a log `[A, B, C]` of strictly ascending identities and the
cursor at `identity(A)`, one `sync_new_events` pass hands exactly `B` then
`C` to the uploader, in ascending identity order; if both uploads succeed
the pass reports 2 and the cursor ends at `identity(C)`; if `B` succeeds
and `C` fails after its retries, the pass reports 1, the persisted cursor
ends at `identity(B)`, and a subsequent pass (cursor round-tripping through
the ISO format) attempts only `C`. -/
theorem sync_uploads_after_cursor_and_resumes
    (parse : String → Option ℚ) (iso : ℚ → String) (uploadOk : JDict → Bool)
    (a b c : JDict) (s0 sa sb sc : String) (qa qb qc : ℚ)
    (hta : dictGet "timestamp" a = some (.str sa))
    (htb : dictGet "timestamp" b = some (.str sb))
    (htc : dictGet "timestamp" c = some (.str sc))
    (hea : sa.isEmpty = false) (heb : sb.isEmpty = false) (hec : sc.isEmpty = false)
    (hpa : parse sa = some qa) (hpb : parse sb = some qb) (hpc : parse sc = some qc)
    (hab : qa < qb) (hbc : qb < qc)
    (hs0 : parse s0 = some qa) :
    (FirebaseConnector.sync_new_events parse iso uploadOk [a, b, c] (some s0)).2.2
      = [b, c] ∧
    (uploadOk b = true → uploadOk c = true →
      FirebaseConnector.sync_new_events parse iso uploadOk [a, b, c] (some s0)
        = (2, some (iso qc), [b, c])) ∧
    (uploadOk b = true → uploadOk c = false →
      (FirebaseConnector.sync_new_events parse iso uploadOk [a, b, c] (some s0)).1 = 1 ∧
      (FirebaseConnector.sync_new_events parse iso uploadOk [a, b, c] (some s0)).2.1
        = some (iso qb) ∧
      (parse (iso qb) = some qb →
        (FirebaseConnector.sync_new_events parse iso uploadOk [a, b, c]
            (some (iso qb))).2.2 = [c])) := by
  have hca : FirebaseConnector.candidateOf parse (some qa) a = none := by
    rw [candidateOf_str parse (some qa) a sa qa hta hea hpa]
    simp [lt_irrefl]
  have hcb : FirebaseConnector.candidateOf parse (some qa) b = some (qb, b) := by
    rw [candidateOf_str parse (some qa) b sb qb htb heb hpb]
    simp [hab]
  have hcc : FirebaseConnector.candidateOf parse (some qa) c = some (qc, c) := by
    rw [candidateOf_str parse (some qa) c sc qc htc hec hpc]
    simp [hab.trans hbc]
  have hcand : List.filterMap (FirebaseConnector.candidateOf parse (some qa)) [a, b, c]
      = [(qb, b), (qc, c)] := by
    simp [List.filterMap_cons, hca, hcb, hcc]
  have hsorted : List.insertionSort (fun x y => x.1 ≤ y.1) [(qb, b), (qc, c)]
      = [(qb, b), (qc, c)] :=
    List.Sorted.insertionSort_eq (by simp [List.sorted_cons, hbc.le])
  have key1 : FirebaseConnector.sync_new_events parse iso uploadOk [a, b, c] (some s0)
      = ((List.foldl (fun (acc : Nat × Option String) p =>
            if uploadOk p.2 then (acc.1 + 1, some (iso p.1)) else acc)
            (0, some s0) [(qb, b), (qc, c)]).1,
         (List.foldl (fun (acc : Nat × Option String) p =>
            if uploadOk p.2 then (acc.1 + 1, some (iso p.1)) else acc)
            (0, some s0) [(qb, b), (qc, c)]).2,
         [b, c]) := by
    simp only [FirebaseConnector.sync_new_events, hs0, hcand, hsorted,
      List.map_cons, List.map_nil]
  refine ⟨?_, ?_, ?_⟩
  · rw [key1]
  · intro hub huc
    rw [key1]
    simp [hub, huc]
  · intro hub huc
    refine ⟨?_, ?_, ?_⟩
    · rw [key1]
      simp [hub, huc]
    · rw [key1]
      simp [hub, huc]
    · intro hiso
      have hca' : FirebaseConnector.candidateOf parse (some qb) a = none := by
        rw [candidateOf_str parse (some qb) a sa qa hta hea hpa]
        simp [lt_asymm hab]
      have hcb' : FirebaseConnector.candidateOf parse (some qb) b = none := by
        rw [candidateOf_str parse (some qb) b sb qb htb heb hpb]
        simp [lt_irrefl]
      have hcc' : FirebaseConnector.candidateOf parse (some qb) c = some (qc, c) := by
        rw [candidateOf_str parse (some qb) c sc qc htc hec hpc]
        simp [hbc]
      have hcand' : List.filterMap (FirebaseConnector.candidateOf parse (some qb))
          [a, b, c] = [(qc, c)] := by
        simp [List.filterMap_cons, hca', hcb', hcc']
      have hsorted' : List.insertionSort (fun x y => x.1 ≤ y.1) [(qc, c)] = [(qc, c)] :=
        List.Sorted.insertionSort_eq (by simp)
      simp only [FirebaseConnector.sync_new_events, hiso, hcand', hsorted',
        List.map_cons, List.map_nil]

/-- C1 witness: three concrete entries with timestamps 1 < 2 < 3, cursor at
1, upload failing exactly on the third entry.  The pass reports one upload,
leaves the cursor at the second entry's identity, and the next pass
attempts only the third entry. -/
theorem sync_uploads_after_cursor_and_resumes_witness :
    (FirebaseConnector.sync_new_events parseFix isoFix uploadOkFix
        [entryFix "1", entryFix "2", entryFix "3"] (some "1")).1 = 1 ∧
    (FirebaseConnector.sync_new_events parseFix isoFix uploadOkFix
        [entryFix "1", entryFix "2", entryFix "3"] (some "1")).2.1
      = some (isoFix 2) ∧
    (FirebaseConnector.sync_new_events parseFix isoFix uploadOkFix
        [entryFix "1", entryFix "2", entryFix "3"] (some (isoFix 2))).2.2
      = [entryFix "3"] := by
  have h := (sync_uploads_after_cursor_and_resumes parseFix isoFix uploadOkFix
      (entryFix "1") (entryFix "2") (entryFix "3") "1" "1" "2" "3" 1 2 3
      rfl rfl rfl rfl rfl rfl (by decide) (by decide) (by decide)
      (by norm_num) (by norm_num) (by decide)).2.2 (by decide) (by decide)
  exact ⟨h.1, h.2.1, h.2.2 (by decide)⟩

end DetectorCaidas
